import Mathlib

/-!
Shallow embedding of the deterministic test reactor of `tests/server.py`
(`FakeTransport`, `ThreadPool`, `FakeChannel` producer pumping,
`wait_until_result`, `FakeResolver`) and of the extensibility hook of
`synapse/events/third_party_rules.py` (`ThirdPartyEventRules`), together
with proofs of the behavioural properties claimed for them.

Conventions of the embedding: byte strings are lists of byte values;
stateful methods become pure functions from the object state to the new
state plus the externally observable effects (chunks handed to the peer's
`dataReceived`, callbacks scheduled on the reactor, `connectionLost`
notifications).  A Python `raise` becomes an `Except.error` result; an
exception raised by an external collaborator (the peer's `dataReceived`)
is an explicit boolean input saying whether the call raised.
-/

/-- A byte string, as the list of its byte values. -/
abbrev ByteStr := List Nat

/-- State of `tests/server.py::FakeTransport`.  The peer protocol
(`self.other`), the producing protocol (`self._protocol`) and the reactor
are external collaborators: what the transport reads of them is passed to
the operations as arguments (`otherHasTransport` for
`getattr(self.other, "transport") is None`, `deliverOk` for whether
`other.dataReceived` returns normally), and `hasProtocol` records whether
`self._protocol` is set. -/
structure FakeTransport where
  disconnecting : Bool := false
  disconnected : Bool := false
  connected : Bool := true
  buffer : ByteStr := []
  autoflush : Bool := true
  hasProtocol : Bool := false
deriving DecidableEq

/-- Embedding of `FakeTransport.write(byt)`: raises (`Except.error`) if the transport
is disconnecting; otherwise appends `byt` to the buffer and, when
`autoflush` is set, schedules a `flush` on the reactor at delay 0
(returned as `some 0`). -/
def FakeTransport.write (t : FakeTransport) (byt : ByteStr) :
    Except String (FakeTransport × Option Nat) :=
  if t.disconnecting then
    .error "Writing to disconnecting FakeTransport"
  else
    .ok ({ t with buffer := t.buffer ++ byt },
      if t.autoflush then some 0 else none)

/-- Result of one `FakeTransport.flush` call: the new transport state, the
calls made to `other.dataReceived` (in order), and the delay of a
rescheduled `flush` callback if one was put on the reactor. -/
structure FlushResult where
  t : FakeTransport
  delivered : List ByteStr
  reschedule : Option Nat
deriving DecidableEq

/-- Embedding of `FakeTransport.flush(maxbytes)`.  Early-outs: empty buffer,
`disconnected`, and peer without a transport attribute (in which case it
reschedules itself at delay 0 when `autoflush` is set).  Otherwise it
hands `buffer[:maxbytes]` (the whole buffer when `maxbytes is None`) to
`other.dataReceived`; if that call raises (`deliverOk = false`) the
exception is caught and `flush` returns with the state untouched.  On
successful delivery the delivered bytes are dropped from the buffer, a
further `flush` is rescheduled at delay 0 when bytes remain and
`autoflush` is set, and a pending graceful disconnect completes once the
buffer has drained. -/
def FakeTransport.flush (t : FakeTransport) (otherHasTransport : Bool)
    (deliverOk : Bool) (maxbytes : Option Nat) : FlushResult :=
  if t.buffer.isEmpty then ⟨t, [], none⟩
  else if t.disconnected then ⟨t, [], none⟩
  else if !otherHasTransport then
    ⟨t, [], if t.autoflush then some 0 else none⟩
  else
    let to_write := match maxbytes with
      | some m => t.buffer.take m
      | none => t.buffer
    if !deliverOk then ⟨t, [to_write], none⟩
    else
      let buffer' := t.buffer.drop to_write.length
      ⟨{ t with
          buffer := buffer'
          disconnected := buffer'.isEmpty && t.disconnecting },
        [to_write],
        if !buffer'.isEmpty && t.autoflush then some 0 else none⟩

/-- Embedding of `FakeTransport.loseConnection(reason)`: if not already disconnecting,
marks the transport disconnecting, notifies `self._protocol` of the
connection loss (the returned boolean records whether `connectionLost`
was called), and completes the disconnect immediately only when the
buffer is already empty; otherwise the disconnect is delayed until the
buffer is flushed.  A second call is a no-op. -/
def FakeTransport.loseConnection (t : FakeTransport) : FakeTransport × Bool :=
  if !t.disconnecting then
    if !t.buffer.isEmpty then
      ({ t with disconnecting := true }, t.hasProtocol)
    else
      ({ t with
          disconnecting := true
          connected := false
          disconnected := true }, t.hasProtocol)
  else (t, false)

/-- Embedding of `FakeTransport.abortConnection()`: if not already disconnecting, marks
the transport disconnecting and notifies `self._protocol` (the returned
boolean); in every case sets `disconnected` immediately, without waiting
for the buffer to drain. -/
def FakeTransport.abortConnection (t : FakeTransport) : FakeTransport × Bool :=
  if !t.disconnecting then
    ({ t with disconnecting := true, disconnected := true }, t.hasProtocol)
  else
    ({ t with disconnected := true }, false)

/-- One externally driven call on a `FakeTransport`: a `write`, a `flush`
(with the peer observations and the `maxbytes` argument), a
`loseConnection` or an `abortConnection`.  Quantifying over lists of
these covers every interleaving of writes and (auto- or manually
scheduled) flushes. -/
inductive Op where
  | write (byt : ByteStr)
  | flush (otherHasTransport : Bool) (deliverOk : Bool) (maxbytes : Option Nat)
  | loseConnection
  | abortConnection
deriving DecidableEq

/-- Accumulated outcome of running a list of `Op`s: final transport state,
every chunk passed to `other.dataReceived` (in order), and how many
`write` calls returned normally / raised. -/
structure RunResult where
  t : FakeTransport
  delivered : List ByteStr
  okWrites : Nat
  errWrites : Nat
deriving DecidableEq

/-- Apply one `Op` to a `RunResult`.  A `write` that raises leaves the
transport untouched (the exception propagates to the caller, which may
keep going). -/
def stepOp (r : RunResult) (op : Op) : RunResult :=
  match op with
  | .write b =>
    match r.t.write b with
    | .ok (t', _) => { r with t := t', okWrites := r.okWrites + 1 }
    | .error _ => { r with errWrites := r.errWrites + 1 }
  | .flush oht dok mb =>
    let f := r.t.flush oht dok mb
    { r with t := f.t, delivered := r.delivered ++ f.delivered }
  | .loseConnection => { r with t := (r.t.loseConnection).1 }
  | .abortConnection => { r with t := (r.t.abortConnection).1 }

/-- Run a list of `Op`s from a starting transport state. -/
def runTrace (t0 : FakeTransport) (ops : List Op) : RunResult :=
  ops.foldl stepOp ⟨t0, [], 0, 0⟩

/-- Whether an `Op` is a `write`. -/
def Op.isWrite : Op → Bool
  | .write _ => true
  | _ => false

/-- An `Op` is benign when it is a `write`, or a `flush` observing a peer
that has a transport attached and whose `dataReceived` returns normally. -/
def Op.benign : Op → Bool
  | .write _ => true
  | .flush oht dok _ => oht && dok
  | _ => false

/-- Concatenation of all byte strings passed to `write` in a trace, in
call order. -/
def writtenOf (ops : List Op) : ByteStr :=
  (ops.filterMap fun op => match op with | .write b => some b | _ => none).flatten

/-- One observable event of a `ThreadPool.callInThreadWithCallback`
submission: either `function` ran (with its outcome: `Except.ok` for a
normal return, `Except.error` for a raised failure), or `onResult` was
invoked with the given `(success, result_or_failure)` arguments. -/
inductive CIEvent (ε α : Type) where
  | ranFunction (r : Except ε α)
  | ranOnResult (success : Bool) (r : Except ε α)

/-- Whether a `CIEvent` is an `onResult` invocation. -/
def CIEvent.isOnResult {ε α : Type} : CIEvent ε α → Bool
  | .ranOnResult _ _ => true
  | _ => false

/-- A callback placed on the reactor by `callLater`: its delay and, when
fired, the events it produces. -/
structure ScheduledCall (ε α : Type) where
  delay : Nat
  fire : Unit → List (CIEvent ε α)

/-- Embedding of `ThreadPool.callInThreadWithCallback(onResult,
function, ...)`.  The code builds a `Deferred` `d`, adds a callback
running `function`, adds `_` (which calls `onResult(False, res)` when the
result is a `Failure` and `onResult(True, res)` otherwise) with
`addBoth`, and makes a single `reactor.callLater(0, d.callback, True)`
call.  Firing that one reactor callback therefore runs the whole deferred
chain synchronously: `function` first, then `onResult` with its outcome.
The returned list holds exactly the callbacks the submission scheduled on
the reactor; the submission itself invokes nothing. -/
def ThreadPool.callInThreadWithCallback {ε α : Type}
    (function : Unit → Except ε α) : List (ScheduledCall ε α) :=
  [ { delay := 0
      fire := fun _ =>
        match function () with
        | .ok v => [.ranFunction (.ok v), .ranOnResult true (.ok v)]
        | .error e => [.ranFunction (.error e), .ranOnResult false (.error e)] } ]

/-- Producer-pump state shared by `FakeChannel.registerProducer` and
`FakeTransport.registerProducer`.  Virtual time is counted in tenths of a
unit, so the 0.1-delay of the repeated `_produce` callback is one tick.
`producer` says whether a producer is currently registered (`_producer is
not None`), `nextPump` is the due time of the pending `_produce`
callback, if any, and `resumes` records the times at which
`resumeProducing` was invoked. -/
structure PumpState where
  producer : Bool := false
  now : Nat := 0
  nextPump : Option Nat := none
  resumes : List Nat := []
deriving DecidableEq

/-- Embedding of `registerProducer(producer, streaming)` (same shape in `FakeChannel`
and `FakeTransport`): stores the producer and, when `streaming` is false,
schedules `_produce` at delay 0.  A streaming producer is stored but no
pump callback is scheduled. -/
def PumpState.registerProducer (s : PumpState) (streaming : Bool) : PumpState :=
  { s with
      producer := true
      nextPump := if streaming then s.nextPump else some s.now }

/-- Embedding of `unregisterProducer()`: clears the stored producer. -/
def PumpState.unregisterProducer (s : PumpState) : PumpState :=
  { s with producer := false }

/-- One execution of the `FakeChannel._produce` callback at its due time
`t`: if a producer is still registered, invoke its `resumeProducing` and
schedule the next `_produce` 0.1 later; otherwise do nothing (the guard
`if self._producer:` fails and the chain ends). -/
def PumpState.fireChannelPump (s : PumpState) (t : Nat) : PumpState :=
  if s.producer then
    { s with
        now := t
        resumes := s.resumes ++ [t]
        nextPump := some (t + 1) }
  else { s with now := t, nextPump := none }

/-- One execution of the `FakeTransport._produce` callback at its due
time `t`.  `FakeTransport._produce` has no `None` guard: it calls
`self.producer.resumeProducing()` directly, so with no producer
registered it raises an attribute error (`Except.error`), which
propagates out of the reactor tick; no resume happens and nothing is
rescheduled.  The producer's `resumeProducing` returns a deferred; we
model producers whose deferred has already fired by the time
`addCallback` runs, so the `callLater(0.1, _produce)` in the deferred's
callback is issued immediately. -/
def PumpState.fireTransportPump (s : PumpState) (t : Nat) :
    Except String PumpState :=
  if s.producer then
    .ok { s with
        now := t
        resumes := s.resumes ++ [t]
        nextPump := some (t + 1) }
  else .error "AttributeError: NoneType object has no attribute"

/-- Run the channel pump chain up to virtual time `target` (in tenths):
repeatedly fire the pending `_produce` callback while it is due.  `fuel`
bounds the recursion; `target - dueTime + 1` firings always suffice. -/
def PumpState.advanceChannelRun : Nat → PumpState → Nat → PumpState
  | 0, s, target => { s with now := target }
  | fuel + 1, s, target =>
    match s.nextPump with
    | none => { s with now := target }
    | some t =>
      if t ≤ target then
        PumpState.advanceChannelRun fuel (s.fireChannelPump t) target
      else { s with now := target }

/-- Embedding of `clock.advance(dt / 10)` for the channel pump: executes every pending
`_produce` whose due time lies within the advanced window. -/
def PumpState.advanceChannel (s : PumpState) (dt : Nat) : PumpState :=
  PumpState.advanceChannelRun (dt + 1) s (s.now + dt)

/-- Run the transport pump chain up to virtual time `target`.  A pump
firing that raises makes the whole advance raise (errors in scheduled
callbacks other than delivery propagate out of `advance`). -/
def PumpState.advanceTransportRun : Nat → PumpState → Nat → Except String PumpState
  | 0, s, target => .ok { s with now := target }
  | fuel + 1, s, target =>
    match s.nextPump with
    | none => .ok { s with now := target }
    | some t =>
      if t ≤ target then
        match s.fireTransportPump t with
        | .ok s' => PumpState.advanceTransportRun fuel s' target
        | .error e => .error e
      else .ok { s with now := target }

/-- Embedding of `clock.advance(dt / 10)` for the transport pump. -/
def PumpState.advanceTransport (s : PumpState) (dt : Nat) :
    Except String PumpState :=
  PumpState.advanceTransportRun (dt + 1) s (s.now + dt)

/-- Embedding of `tests/server.py::wait_until_result`, one loop iteration.  The
request's `finished` flag is abstracted as a function of the number of
`clock.advance(0.1)` calls made so far, which is exactly the loop
counter's value at each guard check.  `Except.error x` is the
`TimedOutException` raise and `Except.ok x` is normal termination, each
carrying the number of `advance` calls performed up to that point. -/
def waitLoop (finished : Nat → Bool) (timeout : Nat) (x : Nat) :
    Except Nat Nat :=
  if finished x then .ok x
  else if x + 1 > timeout then .error x
  else waitLoop finished timeout (x + 1)
termination_by timeout + 1 - x
decreasing_by omega

/-- Embedding of `wait_until_result(clock, request, timeout)`: run the wait loop from
a fresh counter. -/
def wait_until_result (finished : Nat → Bool) (timeout : Nat) :
    Except Nat Nat :=
  waitLoop finished timeout 0

/-- The resolution failure raised by `FakeResolver.getHostByName` for a
hostname missing from the `lookups` table. -/
inductive DNSLookupFailure where
  | unknown (name : String)
deriving DecidableEq

/-- Embedding of `tests/server.py::FakeResolver.getHostByName`: a name present in the
reactor's `lookups` table yields a successful result carrying the mapped
address (`succeed(lookups[name])`); an absent name yields a failed result
carrying a DNS lookup error (`fail(DNSLookupError(...))`).  The `lookups`
dict is modelled as an association list. -/
def getHostByName (lookups : List (String × String)) (name : String) :
    Except DNSLookupFailure String :=
  match lookups.lookup name with
  | none => .error (.unknown name)
  | some addr => .ok addr

/-- An event id, opaque to the embedding. -/
abbrev EventId := String

/-- A state map key: (event type, state key). -/
abbrev StateKey := String × String

/-- A call made to the datastore by a `ThirdPartyEventRules` method. -/
inductive StoreOp where
  | get_event (event_id : EventId)
  | get_filtered_current_state_ids (room_id : String)
  | get_events (event_ids : List EventId)
deriving DecidableEq

/-- The slice of the homeserver datastore that
`synapse/events/third_party_rules.py` reads, as abstract query
functions. -/
structure Datastore (Event : Type) where
  get_event : EventId → Option Event
  get_filtered_current_state_ids : String → List (StateKey × EventId)
  get_events : List EventId → EventId → Option Event

/-- An administrator-configured third-party rules module: the four
callbacks `ThirdPartyEventRules` delegates to when one is configured. -/
structure TPModule (Event Requester RoomConfig : Type) where
  check_event_allowed : Event → List (StateKey × Option Event) → Bool
  on_create_room : Requester → RoomConfig → Bool → Bool
  check_threepid_can_be_invited :
    String → String → List (StateKey × Option Event) → Bool
  check_room_can_be_added_to_public_rooms_directory :
    String → List (StateKey × Option Event) → Bool

/-- Embedding of `ThirdPartyEventRules` from `synapse/events/third_party_rules.py`:
`third_party_rules` is `none` when no module is configured
(`hs.config.third_party_event_rules` unset). -/
structure ThirdPartyEventRules (Event Requester RoomConfig : Type) where
  third_party_rules : Option (TPModule Event Requester RoomConfig)
  store : Datastore Event

/-- Embedding of `ThirdPartyEventRules.check_event_allowed(event, context)`.  Returns
the decision together with the datastore calls made.  With no module
configured it returns `True` at once; otherwise it fetches every event of
the context's `prev_state_ids` from the store and delegates.
`prev_state_ids` models `await context.get_prev_state_ids()`. -/
def ThirdPartyEventRules.check_event_allowed {Event Requester RoomConfig : Type}
    (r : ThirdPartyEventRules Event Requester RoomConfig)
    (event : Event) (prev_state_ids : List (StateKey × EventId)) :
    Bool × List StoreOp :=
  match r.third_party_rules with
  | none => (true, [])
  | some m =>
    let state_events := prev_state_ids.map fun ke => (ke.1, r.store.get_event ke.2)
    (m.check_event_allowed event state_events,
      prev_state_ids.map fun ke => StoreOp.get_event ke.2)

/-- Embedding of `ThirdPartyEventRules.on_create_room(requester, config,
is_requester_admin)`. -/
def ThirdPartyEventRules.on_create_room {Event Requester RoomConfig : Type}
    (r : ThirdPartyEventRules Event Requester RoomConfig)
    (requester : Requester) (config : RoomConfig)
    (is_requester_admin : Bool) : Bool × List StoreOp :=
  match r.third_party_rules with
  | none => (true, [])
  | some m => (m.on_create_room requester config is_requester_admin, [])

/-- Embedding of `ThirdPartyEventRules._get_state_events_dict_for_room(room_id)`:
fetches the room's filtered current state ids and the corresponding
events, returning the state map plus the datastore calls made. -/
def ThirdPartyEventRules.get_state_events_dict_for_room
    {Event Requester RoomConfig : Type}
    (r : ThirdPartyEventRules Event Requester RoomConfig) (room_id : String) :
    List (StateKey × Option Event) × List StoreOp :=
  let state_ids := r.store.get_filtered_current_state_ids room_id
  let room_state_events := r.store.get_events (state_ids.map Prod.snd)
  (state_ids.map fun ke => (ke.1, room_state_events ke.2),
    [StoreOp.get_filtered_current_state_ids room_id,
      StoreOp.get_events (state_ids.map Prod.snd)])

/-- Embedding of `ThirdPartyEventRules.check_threepid_can_be_invited(medium, address,
room_id)`. -/
def ThirdPartyEventRules.check_threepid_can_be_invited
    {Event Requester RoomConfig : Type}
    (r : ThirdPartyEventRules Event Requester RoomConfig)
    (medium : String) (address : String) (room_id : String) :
    Bool × List StoreOp :=
  match r.third_party_rules with
  | none => (true, [])
  | some m =>
    let se := r.get_state_events_dict_for_room room_id
    (m.check_threepid_can_be_invited medium address se.1, se.2)

/-- Embedding of `ThirdPartyEventRules.check_room_can_be_added_to_public_rooms_directory`. -/
def ThirdPartyEventRules.check_room_can_be_added_to_public_rooms_directory
    {Event Requester RoomConfig : Type}
    (r : ThirdPartyEventRules Event Requester RoomConfig) (room_id : String) :
    Bool × List StoreOp :=
  match r.third_party_rules with
  | none => (true, [])
  | some m =>
    let se := r.get_state_events_dict_for_room room_id
    (m.check_room_can_be_added_to_public_rooms_directory room_id se.1, se.2)

/-- A concrete empty datastore over unit events, for the C10 witness. -/
def emptyStore : Datastore Unit :=
  { get_event := fun _ => none
    get_filtered_current_state_ids := fun _ => []
    get_events := fun _ _ => none }

lemma take_len_append_drop (m : Nat) (b : List Nat) :
    b.take m ++ b.drop (b.take m).length = b := by
  rw [List.length_take]
  rcases Nat.le_total m b.length with h | h
  · rw [Nat.min_eq_left h, List.take_append_drop]
  · rw [Nat.min_eq_right h, List.drop_length, List.take_of_length_le h, List.append_nil]

lemma writtenOf_cons (op : Op) (rest : List Op) :
    writtenOf (op :: rest) = writtenOf [op] ++ writtenOf rest := by
  cases op
  all_goals simp [writtenOf, List.filterMap_cons]

lemma stepOp_benign (r : RunResult) (op : Op) (hb : op.benign = true)
    (h1 : r.t.disconnecting = false) (h2 : r.t.disconnected = false) :
    (stepOp r op).t.disconnecting = false ∧
    (stepOp r op).t.disconnected = false ∧
    (stepOp r op).delivered.flatten ++ (stepOp r op).t.buffer
      = r.delivered.flatten ++ r.t.buffer ++ writtenOf [op] ∧
    (stepOp r op).errWrites = r.errWrites ∧
    (stepOp r op).okWrites = r.okWrites + ([op].filter Op.isWrite).length := by
  cases op with
  | write b =>
    simp [stepOp, FakeTransport.write, h1, h2, writtenOf, Op.isWrite, List.append_assoc]
  | flush oht dok mb =>
    simp only [Op.benign, Bool.and_eq_true] at hb
    obtain ⟨hoht, hdok⟩ := hb
    subst hoht; subst hdok
    by_cases hbuf : r.t.buffer.isEmpty
    · simp [stepOp, FakeTransport.flush, hbuf, writtenOf, h1, h2, Op.isWrite]
    · cases mb with
      | none =>
        simp [stepOp, FakeTransport.flush, hbuf, h1, h2, writtenOf, Op.isWrite,
          List.drop_length, List.append_assoc]
      | some m =>
        simp [stepOp, FakeTransport.flush, hbuf, h1, h2, writtenOf, Op.isWrite,
          List.append_assoc, -List.length_take]
        exact take_len_append_drop m r.t.buffer
  | loseConnection => simp [Op.benign] at hb
  | abortConnection => simp [Op.benign] at hb

lemma foldl_benign (ops : List Op) : ∀ (r : RunResult),
    (∀ op ∈ ops, op.benign = true) →
    r.t.disconnecting = false → r.t.disconnected = false →
    (ops.foldl stepOp r).t.disconnecting = false ∧
    (ops.foldl stepOp r).t.disconnected = false ∧
    (ops.foldl stepOp r).delivered.flatten ++ (ops.foldl stepOp r).t.buffer
      = r.delivered.flatten ++ r.t.buffer ++ writtenOf ops ∧
    (ops.foldl stepOp r).errWrites = r.errWrites ∧
    (ops.foldl stepOp r).okWrites = r.okWrites + (ops.filter Op.isWrite).length := by
  induction ops with
  | nil => intro r _ h1 h2; simp [writtenOf, h1, h2]
  | cons op rest ih =>
    intro r hb h1 h2
    have hop := stepOp_benign r op (hb op (by simp)) h1 h2
    have hrest := ih (stepOp r op) (fun o ho => hb o (by simp [ho]))
      hop.1 hop.2.1
    simp only [List.foldl_cons]
    refine ⟨hrest.1, hrest.2.1, ?_, ?_, ?_⟩
    · rw [hrest.2.2.1, hop.2.2.1, writtenOf_cons op rest]
      simp [List.append_assoc]
    · rw [hrest.2.2.2.1, hop.2.2.2.1]
    · rw [hrest.2.2.2.2, hop.2.2.2.2]
      cases op
      all_goals simp [Op.isWrite]
      all_goals omega

/-- Claim C1: for every sequence of `write` calls on a connected
`FakeTransport` whose peer has a transport attached and whose peer's
`dataReceived` never raises, under any interleaving of `flush` calls with
any `maxbytes` chunking, no `write` raises, the concatenation of the
chunks passed to the peer's `dataReceived` plus the still-buffered bytes
equals the exact concatenation of the written byte sequences in call
order, and once the buffer has drained the delivered concatenation equals
the written concatenation. -/
theorem transport_write_flush_reassembly (af : Bool) (ops : List Op)
    (hb : ∀ op ∈ ops, op.benign = true) :
    (runTrace { autoflush := af } ops).errWrites = 0 ∧
    (runTrace { autoflush := af } ops).delivered.flatten
        ++ (runTrace { autoflush := af } ops).t.buffer = writtenOf ops ∧
    ((runTrace { autoflush := af } ops).t.buffer = [] →
      (runTrace { autoflush := af } ops).delivered.flatten = writtenOf ops) := by
  have h := foldl_benign ops ⟨{ autoflush := af }, [], 0, 0⟩ hb rfl rfl
  simp only [runTrace]
  refine ⟨h.2.2.2.1, ?_, ?_⟩
  · have h3 := h.2.2.1
    simpa using h3
  · intro hbuf
    have h3 := h.2.2.1
    rw [hbuf] at h3
    simpa using h3

/-- Witness for C1 at a concrete trace: two writes split by a
`maxbytes = 1` flush and drained by two further flushes. -/
theorem transport_write_flush_reassembly_witness :
    (∀ op ∈ [Op.write [1,2], Op.flush true true (some 1), Op.write [3],
        Op.flush true true none, Op.flush true true none], op.benign = true) ∧
    (runTrace { autoflush := true }
        [Op.write [1,2], Op.flush true true (some 1), Op.write [3],
         Op.flush true true none, Op.flush true true none]).delivered.flatten
      = writtenOf [Op.write [1,2], Op.flush true true (some 1), Op.write [3],
         Op.flush true true none, Op.flush true true none] :=
  ⟨by decide, (transport_write_flush_reassembly true _ (by decide)).2.2 (by decide)⟩

lemma stepOp_disconnecting (r : RunResult) (op : Op) (B : ByteStr)
    (hd : r.t.disconnecting = true)
    (hbuf : ∃ i, r.t.buffer = B.drop i)
    (hdel : ∀ c ∈ r.delivered, ∃ j k, c = (B.drop j).take k) :
    (stepOp r op).t.disconnecting = true ∧
    (∃ i, (stepOp r op).t.buffer = B.drop i) ∧
    (∀ c ∈ (stepOp r op).delivered, ∃ j k, c = (B.drop j).take k) ∧
    (stepOp r op).okWrites = r.okWrites ∧
    (stepOp r op).errWrites = r.errWrites + ([op].filter Op.isWrite).length := by
  obtain ⟨i, hi⟩ := hbuf
  cases op with
  | write b =>
    simp [stepOp, FakeTransport.write, hd, Op.isWrite]
    exact ⟨⟨i, hi⟩, hdel⟩
  | flush oht dok mb =>
    by_cases hb : r.t.buffer.isEmpty
    · simp [stepOp, FakeTransport.flush, hb, hd, Op.isWrite]
      exact ⟨⟨i, hi⟩, hdel⟩
    · by_cases hdc : r.t.disconnected
      · simp [stepOp, FakeTransport.flush, hb, hdc, hd, Op.isWrite]
        exact ⟨⟨i, hi⟩, hdel⟩
      · cases oht with
        | false =>
          simp [stepOp, FakeTransport.flush, hb, hdc, hd, Op.isWrite]
          exact ⟨⟨i, hi⟩, hdel⟩
        | true =>
          cases mb with
          | none =>
            cases dok with
            | false =>
              simp [stepOp, FakeTransport.flush, hb, hdc, hd, Op.isWrite]
              refine ⟨⟨i, hi⟩, ?_⟩
              intro c hc
              rcases hc with hc | hc
              · exact hdel c hc
              · exact ⟨i, r.t.buffer.length, by
                  rw [hc, hi, ← hi, List.take_length, hi]⟩
            | true =>
              simp [stepOp, FakeTransport.flush, hb, hdc, hd, Op.isWrite]
              refine ⟨⟨B.length, le_refl _⟩, ?_⟩
              intro c hc
              rcases hc with hc | hc
              · exact hdel c hc
              · exact ⟨i, r.t.buffer.length, by
                  rw [hc, hi, ← hi, List.take_length, hi]⟩
          | some m =>
            cases dok with
            | false =>
              simp [stepOp, FakeTransport.flush, hb, hdc, hd, Op.isWrite]
              refine ⟨⟨i, hi⟩, ?_⟩
              intro c hc
              rcases hc with hc | hc
              · exact hdel c hc
              · exact ⟨i, m, by rw [hc, hi]⟩
            | true =>
              simp [stepOp, FakeTransport.flush, hb, hdc, hd, Op.isWrite]
              refine ⟨⟨(m ⊓ (B.drop i).length) + i, by rw [hi, List.drop_drop, Nat.add_comm i]⟩, ?_⟩
              intro c hc
              rcases hc with hc | hc
              · exact hdel c hc
              · exact ⟨i, m, by rw [hc, hi]⟩
  | loseConnection =>
    simp [stepOp, FakeTransport.loseConnection, hd, Op.isWrite]
    exact ⟨⟨i, hi⟩, hdel⟩
  | abortConnection =>
    simp [stepOp, FakeTransport.abortConnection, hd, Op.isWrite]
    exact ⟨⟨i, hi⟩, hdel⟩

lemma foldl_disconnecting (B : ByteStr) (ops : List Op) : ∀ (r : RunResult),
    r.t.disconnecting = true →
    (∃ i, r.t.buffer = B.drop i) →
    (∀ c ∈ r.delivered, ∃ j k, c = (B.drop j).take k) →
    (ops.foldl stepOp r).t.disconnecting = true ∧
    (∃ i, (ops.foldl stepOp r).t.buffer = B.drop i) ∧
    (∀ c ∈ (ops.foldl stepOp r).delivered, ∃ j k, c = (B.drop j).take k) ∧
    (ops.foldl stepOp r).okWrites = r.okWrites ∧
    (ops.foldl stepOp r).errWrites = r.errWrites + (ops.filter Op.isWrite).length := by
  induction ops with
  | nil =>
    intro r h1 h2 h3
    simpa using ⟨h1, h2, h3⟩
  | cons op rest ih =>
    intro r h1 h2 h3
    have hop := stepOp_disconnecting r op B h1 h2 h3
    have hrest := ih (stepOp r op) hop.1 hop.2.1 hop.2.2.1
    simp only [List.foldl_cons]
    refine ⟨hrest.1, hrest.2.1, hrest.2.2.1, ?_, ?_⟩
    · rw [hrest.2.2.2.1, hop.2.2.2.1]
    · rw [hrest.2.2.2.2, hop.2.2.2.2]
      cases op
      all_goals simp [Op.isWrite]
      all_goals omega

/-- Claim C2: after `loseConnection` the transport is marked
disconnecting; from then on every `write` raises and none succeeds, under
any further sequence of operations, and every chunk ever passed to the
peer's `dataReceived` afterwards is a segment of the bytes that were
already buffered when `loseConnection` was called — so bytes passed to
`write` after `loseConnection` are never delivered. -/
theorem loseConnection_blocks_writes (t : FakeTransport) (ops : List Op) :
    (t.loseConnection).1.disconnecting = true ∧
    (runTrace (t.loseConnection).1 ops).okWrites = 0 ∧
    (runTrace (t.loseConnection).1 ops).errWrites
      = (ops.filter Op.isWrite).length ∧
    ∀ c ∈ (runTrace (t.loseConnection).1 ops).delivered,
      ∃ j k, c = ((t.buffer).drop j).take k := by
  have hdisc : (t.loseConnection).1.disconnecting = true := by
    unfold FakeTransport.loseConnection
    by_cases h : t.disconnecting
    · simp [h]
    · by_cases h2 : t.buffer.isEmpty <;> simp [h, h2]
  have hbufeq : (t.loseConnection).1.buffer = t.buffer := by
    unfold FakeTransport.loseConnection
    by_cases h : t.disconnecting
    · simp [h]
    · by_cases h2 : t.buffer.isEmpty <;> simp [h, h2]
  have h := foldl_disconnecting t.buffer ops ⟨(t.loseConnection).1, [], 0, 0⟩
    hdisc ⟨0, by simpa using hbufeq⟩ (by simp)
  exact ⟨hdisc, by simpa using h.2.2.2.1, by simpa using h.2.2.2.2, h.2.2.1⟩

lemma stepOp_disconnected (r : RunResult) (op : Op)
    (hd : r.t.disconnected = true) :
    (stepOp r op).t.disconnected = true ∧
    (stepOp r op).delivered = r.delivered := by
  cases op with
  | write b =>
    by_cases h : r.t.disconnecting <;>
      simp [stepOp, FakeTransport.write, h, hd]
  | flush oht dok mb =>
    by_cases hb : r.t.buffer.isEmpty <;>
      simp [stepOp, FakeTransport.flush, hb, hd]
  | loseConnection =>
    by_cases h : r.t.disconnecting
    · simp [stepOp, FakeTransport.loseConnection, h, hd]
    · by_cases hb : r.t.buffer.isEmpty <;>
        simp [stepOp, FakeTransport.loseConnection, h, hb, hd]
  | abortConnection =>
    by_cases h : r.t.disconnecting <;>
      simp [stepOp, FakeTransport.abortConnection, h, hd]

lemma foldl_disconnected (ops : List Op) : ∀ (r : RunResult),
    r.t.disconnected = true →
    (ops.foldl stepOp r).t.disconnected = true ∧
    (ops.foldl stepOp r).delivered = r.delivered := by
  induction ops with
  | nil => intro r h; exact ⟨h, rfl⟩
  | cons op rest ih =>
    intro r h
    have hop := stepOp_disconnected r op h
    have hrest := ih (stepOp r op) hop.1
    simp only [List.foldl_cons]
    exact ⟨hrest.1, hrest.2.trans hop.2⟩

/-- Claim C4: `abortConnection` sets `disconnected` synchronously,
without waiting for the buffer to drain; it is idempotent (a second call
changes nothing and does not re-notify the protocol); and after it no
sequence of operations ever passes any chunk to the peer's
`dataReceived`, so buffered-but-undelivered bytes are discarded. -/
theorem abortConnection_disconnects_and_discards (t : FakeTransport)
    (ops : List Op) :
    (t.abortConnection).1.disconnected = true ∧
    ((t.abortConnection).1.abortConnection).1 = (t.abortConnection).1 ∧
    ((t.abortConnection).1.abortConnection).2 = false ∧
    (runTrace (t.abortConnection).1 ops).delivered = [] := by
  have hdisc : (t.abortConnection).1.disconnected = true := by
    by_cases h : t.disconnecting <;> simp [FakeTransport.abortConnection, h]
  have hidem : ((t.abortConnection).1.abortConnection).1 = (t.abortConnection).1 ∧
      ((t.abortConnection).1.abortConnection).2 = false := by
    rcases t with ⟨d1, d2, c, b, a, hp⟩
    by_cases h : d1 <;> simp [FakeTransport.abortConnection, h]
  have h := foldl_disconnected ops ⟨(t.abortConnection).1, [], 0, 0⟩ hdisc
  exact ⟨hdisc, hidem.1, hidem.2, h.2⟩

/-- Claim C5: if the peer's `dataReceived` raises during `flush`
(`deliverOk = false`), the exception is caught inside `flush` (the
embedding of `flush` is a total function: it returns normally in this
case) and the transport's state — buffer, `disconnecting`,
`disconnected` and all other fields — is exactly as before the delivery
attempt. -/
theorem flush_delivery_error_preserves_state (t : FakeTransport)
    (oht : Bool) (mb : Option Nat) :
    (t.flush oht false mb).t = t := by
  by_cases h1 : t.buffer.isEmpty
  · simp [FakeTransport.flush, h1]
  · by_cases h2 : t.disconnected
    · simp [FakeTransport.flush, h1, h2]
    · cases oht <;> simp [FakeTransport.flush, h1, h2]

/-- Claim C6 fails as stated: a `FakeTransport` with `autoflush = False`,
a non-empty buffer and a peer without a transport attribute delivers
nothing and keeps its buffer, but does **not** reschedule a flush at
delay 0. -/
theorem flush_no_reschedule_without_autoflush :
    ¬ (∀ t : FakeTransport, t.buffer ≠ [] → t.disconnected = false →
        (t.flush false true none).delivered = [] ∧
        (t.flush false true none).t = t ∧
        (t.flush false true none).reschedule = some 0) := by
  intro h
  have h2 := (h { buffer := [1], autoflush := false } (by simp) rfl).2.2
  simp [FakeTransport.flush] at h2

/-- Claim C6, amended: for every `FakeTransport` with a non-empty buffer
that is not disconnected, if the peer endpoint's transport attribute is
`None`, `flush` delivers nothing and leaves the transport state (buffer
included) unchanged, and it reschedules itself at delay 0 exactly when
`autoflush` is enabled (the default); with `autoflush` disabled nothing
is rescheduled. -/
theorem flush_peer_without_transport_reschedules (t : FakeTransport)
    (dok : Bool) (mb : Option Nat)
    (h1 : t.buffer ≠ []) (h2 : t.disconnected = false) :
    (t.flush false dok mb).delivered = [] ∧
    (t.flush false dok mb).t = t ∧
    (t.flush false dok mb).reschedule
      = (if t.autoflush then some 0 else none) := by
  have hb : ¬ t.buffer.isEmpty := by
    simpa [List.isEmpty_iff] using h1
  simp [FakeTransport.flush, hb, h2]

/-- Witness for the amended C6 at a concrete transport with the default
`autoflush = true`. -/
theorem flush_peer_without_transport_reschedules_witness :
    (({ buffer := [5] } : FakeTransport).flush false true none).delivered = [] ∧
    (({ buffer := [5] } : FakeTransport).flush false true none).reschedule
      = some 0 := by
  have h := flush_peer_without_transport_reschedules
    { buffer := [5] } true none (by simp) rfl
  exact ⟨h.1, by simpa using h.2.2⟩

/-- Claim C3 fails as stated on its "two-hop" part: at the concrete
submission of a function returning `7`, `callInThreadWithCallback`
schedules exactly **one** delay-0 reactor callback, not two, and firing
that single callback both runs `function` and invokes `onResult` — so
`onResult` does not run as a second scheduled callback distinct from the
one that runs `function`. -/
theorem callInThreadWithCallback_single_callback :
    (ThreadPool.callInThreadWithCallback
        (fun _ => (Except.ok 7 : Except Unit Nat))).length = 1 ∧
    (ThreadPool.callInThreadWithCallback
        (fun _ => (Except.ok 7 : Except Unit Nat))).length ≠ 2 ∧
    ((ThreadPool.callInThreadWithCallback
        (fun _ => (Except.ok 7 : Except Unit Nat))).map (fun c => c.fire ()))
      = [[CIEvent.ranFunction (.ok 7), CIEvent.ranOnResult true (.ok 7)]] := by
  exact ⟨rfl, by simp [ThreadPool.callInThreadWithCallback], rfl⟩

/-- Claim C3, amended: every submission through
`ThreadPool.callInThreadWithCallback` schedules exactly one reactor
callback, at delay 0 (so nothing runs synchronously within the submit
call itself); firing that single callback first runs `function` and then
invokes `onResult` exactly once, strictly after `function` has finished,
with `(True, result)` on a normal return and `(False, failure)` on a
raised failure — the completion and the notification happen inside the
same delay-0 callback, not as two separately scheduled callbacks. -/
theorem callInThreadWithCallback_notifies_once_after_function
    {ε α : Type} (function : Unit → Except ε α) :
    (ThreadPool.callInThreadWithCallback function).map ScheduledCall.delay
      = [0] ∧
    (ThreadPool.callInThreadWithCallback function).map
        (fun c => (c.fire ()).countP CIEvent.isOnResult) = [1] ∧
    (ThreadPool.callInThreadWithCallback function).map (fun c => c.fire ())
      = [[CIEvent.ranFunction (function ()),
          CIEvent.ranOnResult (match function () with
            | .ok _ => true | .error _ => false) (function ())]] := by
  refine ⟨rfl, ?_, ?_⟩
  · cases hf : function () <;>
      simp [ThreadPool.callInThreadWithCallback, hf, List.countP,
        List.countP.go, CIEvent.isOnResult]
  · cases hf : function () <;>
      simp [ThreadPool.callInThreadWithCallback, hf]

/-- Witness for C2 at a concrete transport: `[1,2]` is buffered, the
connection is closed gracefully, then a flush delivers the old bytes and
a later `write` raises. -/
theorem loseConnection_blocks_writes_witness :
    (({ buffer := [1,2] } : FakeTransport).loseConnection).1.disconnecting
      = true ∧
    (runTrace (({ buffer := [1,2] } : FakeTransport).loseConnection).1
        [Op.flush true true none, Op.write [9]]).okWrites = 0 ∧
    (runTrace (({ buffer := [1,2] } : FakeTransport).loseConnection).1
        [Op.flush true true none, Op.write [9]]).errWrites = 1 ∧
    (∃ j k, [1,2] = (([1,2] : ByteStr).drop j).take k) := by
  have h := loseConnection_blocks_writes { buffer := [1,2] }
    [Op.flush true true none, Op.write [9]]
  exact ⟨h.1, h.2.1, h.2.2.1, h.2.2.2 [1,2] (by decide)⟩

lemma advanceChannelRun_nofire (fuel : Nat) (s : PumpState) (target : Nat)
    (h : ∀ u, s.nextPump = some u → target < u) :
    (PumpState.advanceChannelRun fuel s target).resumes = s.resumes := by
  cases fuel with
  | zero => rfl
  | succ fuel =>
    cases hn : s.nextPump with
    | none => simp [PumpState.advanceChannelRun, hn]
    | some u =>
      have hu := h u hn
      simp [PumpState.advanceChannelRun, hn, Nat.not_le_of_lt hu]

lemma advanceChannelRun_registered : ∀ (fuel : Nat) (s : PumpState) (t target : Nat),
    s.producer = true → s.nextPump = some t → t ≤ target →
    target + 1 - t ≤ fuel →
    (PumpState.advanceChannelRun fuel s target).resumes
      = s.resumes ++ List.range' t (target + 1 - t) := by
  intro fuel
  induction fuel with
  | zero => intro s t target _ _ ht hf; omega
  | succ fuel ih =>
    intro s t target hp hn ht hf
    simp only [PumpState.advanceChannelRun, hn, if_pos ht]
    rcases Nat.lt_or_ge t target with hlt | hge
    · have hrec := ih (s.fireChannelPump t) (t + 1) target
        (by simp [PumpState.fireChannelPump, hp])
        (by simp [PumpState.fireChannelPump, hp])
        (by omega) (by omega)
      rw [hrec]
      simp only [PumpState.fireChannelPump, hp, if_pos]
      have hsz : target + 1 - t = (target - t) + 1 := by omega
      have hsz2 : target + 1 - (t + 1) = target - t := by omega
      rw [hsz, hsz2, List.range'_succ, List.append_assoc]
      rfl
    · have hteq : t = target := by omega
      subst hteq
      rw [advanceChannelRun_nofire fuel (s.fireChannelPump t) t
        (by simp [PumpState.fireChannelPump, hp])]
      simp only [PumpState.fireChannelPump, hp, if_pos]
      have hsz : t + 1 - t = 1 := by omega
      rw [hsz, List.range'_one]

lemma advanceChannelRun_unregistered : ∀ (fuel : Nat) (s : PumpState) (target : Nat),
    s.producer = false →
    (PumpState.advanceChannelRun fuel s target).resumes = s.resumes := by
  intro fuel
  induction fuel with
  | zero => intro s target _; rfl
  | succ fuel ih =>
    intro s target hp
    cases hn : s.nextPump with
    | none => simp [PumpState.advanceChannelRun, hn]
    | some u =>
      by_cases hu : u ≤ target
      · simp only [PumpState.advanceChannelRun, hn, if_pos hu]
        rw [ih (s.fireChannelPump u) target (by simp [PumpState.fireChannelPump, hp])]
        simp [PumpState.fireChannelPump, hp]
      · simp [PumpState.advanceChannelRun, hn, hu]

lemma advanceTransportRun_nofire (fuel : Nat) (s : PumpState) (target : Nat)
    (h : ∀ u, s.nextPump = some u → target < u) :
    ∃ s', PumpState.advanceTransportRun fuel s target = .ok s' ∧
      s'.resumes = s.resumes := by
  cases fuel with
  | zero => exact ⟨{ s with now := target }, rfl, rfl⟩
  | succ fuel =>
    cases hn : s.nextPump with
    | none =>
      exact ⟨{ s with now := target },
        by simp [PumpState.advanceTransportRun, hn], rfl⟩
    | some u =>
      have hu := h u hn
      exact ⟨{ s with now := target },
        by simp [PumpState.advanceTransportRun, hn, Nat.not_le_of_lt hu], rfl⟩

lemma advanceTransportRun_registered : ∀ (fuel : Nat) (s : PumpState) (t target : Nat),
    s.producer = true → s.nextPump = some t → t ≤ target →
    target + 1 - t ≤ fuel →
    ∃ s', PumpState.advanceTransportRun fuel s target = .ok s' ∧
      s'.resumes = s.resumes ++ List.range' t (target + 1 - t) := by
  intro fuel
  induction fuel with
  | zero => intro s t target _ _ ht hf; omega
  | succ fuel ih =>
    intro s t target hp hn ht hf
    simp only [PumpState.advanceTransportRun, hn, if_pos ht,
      PumpState.fireTransportPump, hp, if_pos]
    rcases Nat.lt_or_ge t target with hlt | hge
    · obtain ⟨s', hs', hres⟩ := ih
        ⟨true, t, some (t + 1), s.resumes ++ [t]⟩
        (t + 1) target rfl rfl (by omega) (by omega)
      refine ⟨s', hs', ?_⟩
      rw [hres]
      have hsz : target + 1 - t = (target - t) + 1 := by omega
      have hsz2 : target + 1 - (t + 1) = target - t := by omega
      rw [hsz, hsz2, List.range'_succ, List.append_assoc]
      rfl
    · have hteq : t = target := by omega
      subst hteq
      obtain ⟨s', hs', hres⟩ := advanceTransportRun_nofire fuel
        ⟨true, t, some (t + 1), s.resumes ++ [t]⟩ t (by simp)
      refine ⟨s', hs', ?_⟩
      rw [hres]
      have hsz : t + 1 - t = 1 := by omega
      rw [hsz, List.range'_one]

/-- Claim C7: a non-streaming producer registered via `registerProducer`
is resumed automatically once per 0.1 units of virtual time (one tick of
the embedding): the first pump is scheduled at delay 0 and each pump
schedules the next one 0.1 later, so advancing the clock by `n` tenths
invokes `resumeProducing` at times `0, 1, ..., n` — and this holds both
for `FakeChannel` and (for producers whose `resumeProducing` deferred has
already fired) for `FakeTransport`.  Once `unregisterProducer` is called
the automatic pumping stops: a `FakeChannel` pump fires as a no-op and
cancels the chain, so no `resumeProducing` call is ever recorded again,
and a `FakeTransport` pump raises an attribute error without resuming.
A streaming producer is stored but never auto-pumped. -/
theorem producer_pump_every_tenth (n : Nat) (s : PumpState) :
    (PumpState.advanceChannel (PumpState.registerProducer {} false) n).resumes
      = List.range (n + 1) ∧
    (PumpState.advanceChannel (s.unregisterProducer) n).resumes
      = s.resumes ∧
    ((PumpState.registerProducer {} true).producer = true ∧
      (PumpState.registerProducer {} true).nextPump = none ∧
      (PumpState.advanceChannel (PumpState.registerProducer {} true) n).resumes
        = []) ∧
    (∃ s', PumpState.advanceTransport (PumpState.registerProducer {} false) n
        = .ok s' ∧ s'.resumes = List.range (n + 1)) ∧
    (s.unregisterProducer).fireTransportPump n
      = .error "AttributeError: NoneType object has no attribute" := by
  refine ⟨?_, ?_, ⟨rfl, rfl, ?_⟩, ?_, ?_⟩
  · have h := advanceChannelRun_registered (n + 1)
      ⟨true, 0, some 0, []⟩ 0 (0 + n) rfl rfl (Nat.zero_le _) (by omega)
    show (PumpState.advanceChannelRun (n + 1) ⟨true, 0, some 0, []⟩
      (0 + n)).resumes = List.range (n + 1)
    rw [h]
    simp [List.range_eq_range']
  · exact advanceChannelRun_unregistered (n + 1) (s.unregisterProducer)
      (s.unregisterProducer.now + n) rfl
  · exact advanceChannelRun_nofire (n + 1) _ _ (by simp [PumpState.registerProducer])
  · obtain ⟨s', hs', hres⟩ := advanceTransportRun_registered (n + 1)
      ⟨true, 0, some 0, []⟩ 0 (0 + n) rfl rfl (Nat.zero_le _) (by omega)
    refine ⟨s', hs', ?_⟩
    rw [hres]
    simp [List.range_eq_range']
  · simp [PumpState.fireTransportPump, PumpState.unregisterProducer]

lemma waitLoop_never (finished : Nat → Bool) (timeout : Nat)
    (hf : ∀ k, finished k = false) :
    ∀ n x, timeout - x = n → x ≤ timeout →
      waitLoop finished timeout x = .error timeout := by
  intro n
  induction n with
  | zero =>
    intro x hn hx
    have hx2 : x = timeout := by omega
    subst hx2
    rw [waitLoop, hf]
    simp
  | succ n ih =>
    intro x hn hx
    rw [waitLoop, hf]
    have h2 : ¬ (x + 1 > timeout) := by omega
    simp only [h2, if_false, Bool.false_eq_true, ite_false]
    exact ih (x + 1) (by omega) (by omega)

lemma waitLoop_finishes (finished : Nat → Bool) (timeout : Nat) :
    ∀ n x, timeout - x = n →
      (∃ k, x ≤ k ∧ k ≤ timeout ∧ finished k = true) →
      ∃ m, m ≤ timeout ∧ waitLoop finished timeout x = .ok m := by
  intro n
  induction n with
  | zero =>
    intro x hn hk
    obtain ⟨k, hk1, hk2, hk3⟩ := hk
    have hxk : x = k := by omega
    subst hxk
    rw [waitLoop, hk3]
    exact ⟨x, by omega, by simp⟩
  | succ n ih =>
    intro x hn hk
    obtain ⟨k, hk1, hk2, hk3⟩ := hk
    by_cases hfx : finished x = true
    · rw [waitLoop, hfx]
      exact ⟨x, by omega, by simp⟩
    · have hxk : x ≠ k := fun h => hfx (h ▸ hk3)
      have h2 : ¬ (x + 1 > timeout) := by omega
      rw [waitLoop]
      simp only [hfx, Bool.false_eq_true, if_false, h2, ite_false]
      exact ih (x + 1) (by omega) ⟨k, by omega, hk2, hk3⟩

/-- Claim C8: for a request whose `finished` flag never becomes set,
`wait_until_result` raises the distinct timeout condition
(`Except.error`, the `TimedOutException`) after exactly `timeout`
iterations of `clock.advance(0.1)` — the error value is the advance
count, equal to `timeout` — and not before; if `finished` becomes set
within the budget, the loop returns normally and no timeout is raised. -/
theorem wait_until_result_timeout_behavior (finished : Nat → Bool)
    (timeout : Nat) :
    ((∀ k, finished k = false) →
      wait_until_result finished timeout = .error timeout) ∧
    ((∃ k, k ≤ timeout ∧ finished k = true) →
      ∃ m, m ≤ timeout ∧ wait_until_result finished timeout = .ok m) := by
  constructor
  · intro hf
    exact waitLoop_never finished timeout hf timeout 0 (by omega) (by omega)
  · intro ⟨k, hk1, hk2⟩
    exact waitLoop_finishes finished timeout timeout 0 (by omega)
      ⟨k, Nat.zero_le k, hk1, hk2⟩

/-- Witness for C8: with a budget of 5 ticks, a never-finishing request
times out with exactly 5 advances, and a request finishing at tick 3
completes without a timeout. -/
theorem wait_until_result_timeout_behavior_witness :
    wait_until_result (fun _ => false) 5 = .error 5 ∧
    ∃ m, m ≤ 5 ∧ wait_until_result (fun k => k == 3) 5 = .ok m := by
  constructor
  · exact (wait_until_result_timeout_behavior (fun _ => false) 5).1
      (fun k => rfl)
  · exact (wait_until_result_timeout_behavior (fun k => k == 3) 5).2
      ⟨3, by omega, by decide⟩

/-- Claim C9: a hostname present in the reactor's `lookups` table
resolves successfully to the mapped address, and a hostname absent from
the table yields a failed result carrying a DNS resolution error — never
a success with an empty result, since the two outcomes are distinct
`Except` constructors. -/
theorem getHostByName_lookup_semantics (lookups : List (String × String))
    (name : String) :
    (∀ addr, lookups.lookup name = some addr →
      getHostByName lookups name = .ok addr) ∧
    (lookups.lookup name = none →
      getHostByName lookups name = .error (.unknown name) ∧
      ∀ addr, getHostByName lookups name ≠ .ok addr) := by
  constructor
  · intro addr h
    simp [getHostByName, h]
  · intro h
    refine ⟨by simp [getHostByName, h], ?_⟩
    intro addr
    simp [getHostByName, h]

/-- Witness for C9 at the spec's concrete scenario: the table maps
`example.test` to `10.0.0.5`; resolving `example.test` succeeds with
that address and resolving `nope.test` fails with a resolution error. -/
theorem getHostByName_lookup_semantics_witness :
    getHostByName [("example.test", "10.0.0.5")] "example.test"
      = .ok "10.0.0.5" ∧
    getHostByName [("example.test", "10.0.0.5")] "nope.test"
      = .error (.unknown "nope.test") := by
  constructor
  · exact (getHostByName_lookup_semantics [("example.test", "10.0.0.5")]
      "example.test").1 "10.0.0.5" (by decide)
  · exact ((getHostByName_lookup_semantics [("example.test", "10.0.0.5")]
      "nope.test").2 (by decide)).1

/-- Claim C10: a `ThirdPartyEventRules` instance with no third-party
rules module configured (`third_party_rules = none`) returns `True` from
`check_event_allowed`, `on_create_room`, `check_threepid_can_be_invited`
and `check_room_can_be_added_to_public_rooms_directory` for all inputs,
without making any datastore call. -/
theorem third_party_rules_default_allow
    (Event Requester RoomConfig : Type)
    (r : ThirdPartyEventRules Event Requester RoomConfig)
    (h : r.third_party_rules = none)
    (event : Event) (prev_state_ids : List (StateKey × EventId))
    (requester : Requester) (config : RoomConfig) (is_admin : Bool)
    (medium : String) (address : String) (room_id : String)
    (room_id2 : String) :
    r.check_event_allowed event prev_state_ids = (true, []) ∧
    r.on_create_room requester config is_admin = (true, []) ∧
    r.check_threepid_can_be_invited medium address room_id = (true, []) ∧
    r.check_room_can_be_added_to_public_rooms_directory room_id2
      = (true, []) := by
  refine ⟨?_, ?_, ?_, ?_⟩
  · simp [ThirdPartyEventRules.check_event_allowed, h]
  · simp [ThirdPartyEventRules.on_create_room, h]
  · simp [ThirdPartyEventRules.check_threepid_can_be_invited, h]
  · simp [ThirdPartyEventRules.check_room_can_be_added_to_public_rooms_directory, h]

/-- Witness for C10 at a concrete unconfigured instance. -/
theorem third_party_rules_default_allow_witness :
    (({ third_party_rules := none, store := emptyStore } :
        ThirdPartyEventRules Unit Unit Unit)).check_event_allowed ()
        [(("m.room.member", "@u:test"), "$e1")] = (true, []) ∧
    (({ third_party_rules := none, store := emptyStore } :
        ThirdPartyEventRules Unit Unit Unit)).on_create_room () () true
      = (true, []) ∧
    (({ third_party_rules := none, store := emptyStore } :
        ThirdPartyEventRules Unit Unit Unit)).check_threepid_can_be_invited
        "email" "a@b.c" "!room:test" = (true, []) ∧
    (({ third_party_rules := none, store := emptyStore } :
        ThirdPartyEventRules Unit Unit Unit)).check_room_can_be_added_to_public_rooms_directory
        "!room:test" = (true, []) :=
  third_party_rules_default_allow Unit Unit Unit
    { third_party_rules := none, store := emptyStore } rfl ()
    [(("m.room.member", "@u:test"), "$e1")] () () true "email" "a@b.c"
    "!room:test" "!room:test"
